import Mathlib

/-!
Verification of the Smart Attendance System (facial recognition + schedule-based
attendance marking).  The embedding models `firebase.py` (schedule resolution and
attendance marking) and `face_recognition.py` (gallery load, matching, pipeline).
Calendar days are day indices (day 0 is a Monday); times of day are seconds since
midnight; course schedule times are minutes since midnight, as parsed from the
stored HH:MM strings.
-/

/-- Day-of-week names as produced by timestamp.strftime with the weekday-name
format; day indices are taken modulo 7 with day 0 a Monday. -/
def weekdayName (d : Nat) : String :=
  [("Monday" : String), ("Tuesday"), ("Wednesday"), ("Thursday"), ("Friday"),
    ("Saturday"), ("Sunday")].getD (d % 7) ("Monday")

/-- A point in time: a calendar-day index and a time of day in seconds. -/
structure DateTime where
  day : Nat
  tod : Nat
  deriving DecidableEq, Repr

/-- One weekday entry of a course schedule: start and end times in minutes since
midnight (the result of parsing the stored HH:MM strings). -/
structure ClassTime where
  start_time : Nat
  end_time : Nat
  deriving DecidableEq, Repr

/-- A course as stored under the courses reference in `firebase.py`. -/
structure Course where
  course_id : String
  name : String
  instructor : String
  enrolled_students : List String
  schedule : List (String × ClassTime)
  deriving DecidableEq, Repr

/-- A student as stored under the students reference in `firebase.py`. -/
structure Student where
  student_id : String
  name : String
  email : String
  enrolled_courses : List String
  deriving DecidableEq, Repr

/-- An attendance record as written by `mark_attendance` in `firebase.py`. -/
structure AttendanceRecord where
  course_id : String
  student_id : String
  date : Nat
  timestamp : DateTime
  status : String
  deriving DecidableEq, Repr

/-- The persistent store: the students, courses and attendance references of the
realtime database, each a list in key order. -/
structure Store where
  students : List Student
  courses : List Course
  attendance : List AttendanceRecord
  deriving DecidableEq, Repr

/-- The per-course loop of `find_current_course` (firebase.py lines 108-124):
skip courses the student is not enrolled in, skip courses with no schedule entry
for the weekday, and return the first course whose window
[start_time, end_time + 15 min] contains the timestamp, both bounds inclusive. -/
def findCourseLoop (enrolled : List String) (day : String) (ts : DateTime) :
    List Course → Option String
  | [] => none
  | c :: rest =>
    if enrolled.contains c.course_id then
      match c.schedule.lookup day with
      | none => findCourseLoop enrolled day ts rest
      | some ct =>
        if ct.start_time * 60 ≤ ts.tod ∧ ts.tod ≤ ct.end_time * 60 + 15 * 60 then
          some c.course_id
        else
          findCourseLoop enrolled day ts rest
    else
      findCourseLoop enrolled day ts rest

/-- `AttendanceSystemSchema.find_current_course` (firebase.py lines 85-126): look
the student up by student_id (none if absent), then scan all courses for the
first enrolled course whose window on the timestamp's weekday contains the
timestamp. -/
def find_current_course (store : Store) (student_id : String) (ts : DateTime) :
    Option String :=
  match store.students.filter (fun s => s.student_id == student_id) with
  | [] => none
  | s :: _ => findCourseLoop s.enrolled_courses (weekdayName ts.day) ts store.courses

/-- The three control-flow outcomes of `mark_attendance` (firebase.py lines
129-162), distinguishable in the source by which message is printed. -/
inductive MarkResult where
  | marked
  | alreadyMarked
  | noActiveCourse
  deriving DecidableEq, Repr

/-- The value `mark_attendance` actually returns to its caller: True only on the
marked branch, False on both no-op branches (firebase.py lines 137, 148, 162). -/
def markReturn : MarkResult → Bool
  | .marked => true
  | .alreadyMarked => false
  | .noActiveCourse => false

/-- `AttendanceSystemSchema.mark_attendance` (firebase.py lines 129-162): resolve
the active course (the falsy test on line 135 also rejects an empty course_id);
scan the student's existing records for one with the same course_id and date;
otherwise append a new record with status present.  The result records which
branch returned; the Python return value is `markReturn` of it. -/
def mark_attendance (store : Store) (student_id : String) (ts : DateTime) :
    MarkResult × Store :=
  match find_current_course store student_id ts with
  | none => (.noActiveCourse, store)
  | some course_id =>
    if course_id = "" then (.noActiveCourse, store)
    else
      let existing := store.attendance.filter (fun r => r.student_id == student_id)
      if existing.any (fun r => r.course_id == course_id && r.date == ts.day) then
        (.alreadyMarked, store)
      else
        (.marked, { store with attendance := store.attendance ++
          [{ course_id := course_id, student_id := student_id, date := ts.day,
             timestamp := ts, status := ("present") }] })

/-- Modelled from the spec: the distance comparison of the external
face_recognition library capability `compare_faces` is not part of this
repository; per the spec a candidate is accepted only if its distance to the
query vector is below the tolerance.  Encodings are abstract (`α`), the distance
function is a parameter, and distances are rationals. -/
def compare_faces {α : Type} (dist : α → α → ℚ) (known : List α) (q : α)
    (tolerance : ℚ) : List Bool :=
  known.map (fun e => decide (dist e q < tolerance))

/-- The index of the first `true`, modelling `matches.index(True)` under the
guard `if True in matches` (face_recognition.py lines 149-150). -/
def firstTrueIdx : List Bool → Nat
  | [] => 0
  | true :: _ => 0
  | false :: rest => firstTrueIdx rest + 1

/-- The per-face matching step of `recognize_faces` (face_recognition.py lines
138-152): compare the query encoding against the gallery with tolerance 0.5 and
take the name at the first matching index, else the unknown label. -/
def recognizeName {α : Type} (dist : α → α → ℚ) (encs : List α)
    (names : List String) (q : α) : String :=
  let ms := compare_faces dist encs q (1 / 2)
  if ms.contains true then
    names.getD (firstTrueIdx ms) ("Unknown")
  else
    ("Unknown")

/-- One file of the gallery directory: its name, and either a decode failure
(`none`, raising inside the per-file try of face_recognition.py lines 55-75) or
the list of face encodings detected in it. -/
structure ImageFile (α : Type) where
  filename : String
  decoded : Option (List α)

/-- The extension filter of `load_known_faces` (face_recognition.py line 52):
the lowercased filename ends with .jpg, .jpeg or .png. -/
def hasImageExt (s : String) : Bool :=
  let l := s.toLower
  l.endsWith (".jpg") || l.endsWith (".jpeg") || l.endsWith (".png")

/-- The filename without its extension, as `os.path.splitext(filename)[0]`
(face_recognition.py line 67). -/
def splitextStem (s : String) : String :=
  let parts := s.splitOn (".")
  if parts.length ≤ 1 then s
  else
    let stem := String.intercalate (".") parts.dropLast
    if stem = "" then s else stem

/-- `load_known_faces` (face_recognition.py lines 45-80): for each file whose
name passes the extension filter, if it decodes and contains at least one face,
append its first encoding and its stem as the student id; a decode failure or a
file with no detectable face is skipped and the loop continues. -/
def load_known_faces {α : Type} : List (ImageFile α) → List α × List String
  | [] => ([], [])
  | f :: rest =>
    let acc := load_known_faces rest
    if hasImageExt f.filename then
      match f.decoded with
      | some (e :: _) => (e :: acc.1, splitextStem f.filename :: acc.2)
      | _ => acc
    else acc

/-- A gallery image that contributes an Identity: extension accepted, decoded,
and at least one face detected. -/
def isWellFormedImage {α : Type} (f : ImageFile α) : Bool :=
  hasImageExt f.filename &&
    (match f.decoded with
     | some (_ :: _) => true
     | _ => false)

/-- The serial connection state relevant to `trigger_led_blink`: whether the
port is open and whether the write raises. -/
structure SerialConn where
  is_open : Bool
  write_fails : Bool

/-- `trigger_led_blink` (face_recognition.py lines 106-121): True only when a
serial connection exists, is open, and the write succeeds; every failure path
returns False after logging. -/
def trigger_led_blink : Option SerialConn → Bool
  | none => false
  | some c => if c.is_open then (if c.write_fails then false else true) else false

/-- The attendance-and-actuator step of `recognize_faces` for one matched face
(face_recognition.py lines 155-164): call `mark_attendance`; only when it
returns True request the LED blink.  Result: the new store, whether the blink
was requested, and the blink outcome. -/
def processMatchedFace (conn : Option SerialConn) (store : Store)
    (student_id : String) (ts : DateTime) : Store × Bool × Bool :=
  let res := mark_attendance store student_id ts
  if markReturn res.1 then
    (res.2, true, trigger_led_blink conn)
  else
    (res.2, false, false)

/-- A course is a candidate for the loop of `find_current_course` when the
student is enrolled in it and it has a schedule entry for the weekday. -/
def isCandidate (enrolled : List String) (day : String) (c : Course) : Bool :=
  enrolled.contains c.course_id && (c.schedule.lookup day).isSome

/-- A one-student, one-course store: student S1 enrolled in CSE001, which meets
Mondays 09:00-10:00 (minutes 540-600); no attendance yet. -/
def mondayStore : Store :=
  { students := [{ student_id := ("S1"), name := ("N"), email := ("E"),
                   enrolled_courses := [("CSE001")] }],
    courses := [{ course_id := ("CSE001"), name := ("C"), instructor := ("I"),
                  enrolled_students := [("S1")],
                  schedule := [((("Monday") : String), ⟨540, 600⟩)] }],
    attendance := [] }

/-- `mondayStore` with one attendance record for (S1, CSE001, day 0) whose
status is present. -/
def presentRecordStore : Store :=
  { mondayStore with attendance :=
      [⟨("CSE001"), ("S1"), 0, ⟨0, 0⟩, ("present")⟩] }

/-- `mondayStore` with one attendance record for (S1, CSE001, day 0) whose
status is absent, not present. -/
def absentRecordStore : Store :=
  { mondayStore with attendance :=
      [⟨("CSE001"), ("S1"), 0, ⟨0, 0⟩, ("absent")⟩] }

example :
    find_current_course mondayStore ("S1") ⟨0, 36900⟩ = some ("CSE001") := by decide

example :
    find_current_course mondayStore ("S1") ⟨0, 36901⟩ = none := by decide

example :
    find_current_course mondayStore ("S1") ⟨0, 32399⟩ = none := by decide

example : mark_attendance mondayStore ("S1") ⟨0, 33000⟩ =
    (.marked, { mondayStore with attendance :=
      [⟨("CSE001"), ("S1"), 0, ⟨0, 33000⟩, ("present")⟩] }) := by decide

example : (mark_attendance absentRecordStore ("S1") ⟨0, 33000⟩).1 = .alreadyMarked := by decide

/-- Emptiness of the candidate filter makes the course loop return none. -/
theorem findCourseLoop_eq_none (enrolled : List String) (day : String) (ts : DateTime) :
    ∀ l : List Course, l.filter (isCandidate enrolled day) = [] →
      findCourseLoop enrolled day ts l = none := by
  intro l
  induction l with
  | nil => intro _; rfl
  | cons c rest ih =>
    intro h
    rw [List.filter_cons] at h
    by_cases hc : isCandidate enrolled day c = true
    · simp [hc] at h
    · rw [if_neg hc] at h
      have hcand := hc
      unfold isCandidate at hcand
      rw [Bool.and_eq_true] at hcand
      push_neg at hcand
      unfold findCourseLoop
      by_cases he : enrolled.contains c.course_id = true
      · have hno : c.schedule.lookup day = none :=
          Option.not_isSome_iff_eq_none.mp (by simpa using hcand he)
        rw [he, if_pos rfl]
        simp only [hno]
        exact ih h
      · rw [if_neg (by simpa using he)]
        exact ih h

/-- When exactly one candidate course survives the filter, the course loop
returns it exactly when the timestamp lies in its inclusive window. -/
theorem findCourseLoop_single (enrolled : List String) (day : String) (ts : DateTime)
    (c : Course) (ct : ClassTime) (hct : c.schedule.lookup day = some ct) :
    ∀ l : List Course, l.filter (isCandidate enrolled day) = [c] →
      findCourseLoop enrolled day ts l =
        if ct.start_time * 60 ≤ ts.tod ∧ ts.tod ≤ ct.end_time * 60 + 15 * 60 then
          some c.course_id
        else
          none := by
  intro l
  induction l with
  | nil => intro h; simp at h
  | cons a rest ih =>
    intro h
    rw [List.filter_cons] at h
    by_cases hc : isCandidate enrolled day a = true
    · rw [if_pos (by simpa using hc)] at h
      obtain ⟨hac, hrest⟩ : a = c ∧ rest.filter (isCandidate enrolled day) = [] := by
        constructor
        · exact (List.cons_eq_cons.mp h).1
        · exact (List.cons_eq_cons.mp h).2
      subst hac
      have hcand := hc
      unfold isCandidate at hcand
      rw [Bool.and_eq_true] at hcand
      unfold findCourseLoop
      rw [hcand.1, if_pos rfl]
      simp only [hct]
      by_cases hw : ct.start_time * 60 ≤ ts.tod ∧ ts.tod ≤ ct.end_time * 60 + 15 * 60
      · rw [if_pos hw, if_pos hw]
      · rw [if_neg hw, if_neg hw]
        exact findCourseLoop_eq_none enrolled day ts rest hrest
    · rw [if_neg hc] at h
      have hcand := hc
      unfold isCandidate at hcand
      rw [Bool.and_eq_true] at hcand
      push_neg at hcand
      unfold findCourseLoop
      by_cases he : enrolled.contains a.course_id = true
      · have hno : a.schedule.lookup day = none :=
          Option.not_isSome_iff_eq_none.mp (by simpa using hcand he)
        rw [he, if_pos rfl]
        simp only [hno]
        exact ih h
      · rw [if_neg (by simpa using he)]
        exact ih h

example :
    recognizeName (fun e _ : ℚ => e) [2 / 5, 3 / 10] [("A"), ("B")] 0 = ("A") := by
  norm_num [recognizeName, compare_faces, firstTrueIdx, List.contains]

example :
    recognizeName (fun e _ : ℚ => e) [3 / 5, 7 / 10] [("A"), ("B")] 0 = ("Unknown") := by
  norm_num [recognizeName, compare_faces, firstTrueIdx, List.contains]

/-- A store differing only in its attendance list resolves the same courses:
`find_current_course` reads only students and courses. -/
theorem find_current_course_attendance_irrel (store : Store)
    (x : List AttendanceRecord) (student_id : String) (ts : DateTime) :
    find_current_course { store with attendance := x } student_id ts =
      find_current_course store student_id ts := rfl

/-- When no course resolves, `mark_attendance` takes the early-return branch and
leaves the store unchanged. -/
theorem mark_attendance_of_none (store : Store) (student_id : String) (ts : DateTime)
    (h : find_current_course store student_id ts = none) :
    mark_attendance store student_id ts = (.noActiveCourse, store) := by
  unfold mark_attendance
  rw [h]

/-- When a nonempty course id resolves, `mark_attendance` is the duplicate test
over the whole attendance list followed by either the no-op or the append. -/
theorem mark_attendance_of_some (store : Store) (student_id : String) (ts : DateTime)
    (c : String) (h : find_current_course store student_id ts = some c) (hc : c ≠ ("")) :
    mark_attendance store student_id ts =
      if store.attendance.any (fun r =>
          (r.student_id == student_id) && (r.course_id == c && r.date == ts.day)) then
        (.alreadyMarked, store)
      else
        (.marked, { store with attendance := store.attendance ++
          [{ course_id := c, student_id := student_id, date := ts.day,
             timestamp := ts, status := ("present") }] }) := by
  unfold mark_attendance
  simp only [h]
  rw [if_neg hc]
  simp only [List.any_filter]

/-- C2: for a student whose sole candidate course on the timestamp's weekday is
`c` with schedule entry `ct`, `find_current_course` returns `c` exactly when the
timestamp lies in the closed interval from start_time to end_time plus the
15-minute grace period on that day, inclusive of both bounds; outside the
interval it returns none. -/
theorem find_current_course_window_inclusive
    (store : Store) (student_id : String) (ts : DateTime)
    (st : Student) (sts : List Student) (c : Course) (ct : ClassTime)
    (hstu : store.students.filter (fun s => s.student_id == student_id) = st :: sts)
    (hcand : store.courses.filter
      (isCandidate st.enrolled_courses (weekdayName ts.day)) = [c])
    (hct : c.schedule.lookup (weekdayName ts.day) = some ct) :
    find_current_course store student_id ts =
      if ct.start_time * 60 ≤ ts.tod ∧ ts.tod ≤ ct.end_time * 60 + 15 * 60 then
        some c.course_id
      else
        none := by
  unfold find_current_course
  rw [hstu]
  exact findCourseLoop_single st.enrolled_courses (weekdayName ts.day) ts c ct hct
    store.courses hcand

/-- Witness for C2 at the Monday 09:00-10:00 course and the last in-window
second 10:15:00 (36900 s). -/
theorem find_current_course_window_inclusive_witness :
    find_current_course mondayStore ("S1") ⟨0, 36900⟩ =
      if 540 * 60 ≤ 36900 ∧ 36900 ≤ 600 * 60 + 15 * 60 then
        some ("CSE001")
      else
        none :=
  find_current_course_window_inclusive mondayStore ("S1") ⟨0, 36900⟩
    { student_id := ("S1"), name := ("N"), email := ("E"),
      enrolled_courses := [("CSE001")] } []
    { course_id := ("CSE001"), name := ("C"), instructor := ("I"),
      enrolled_students := [("S1")],
      schedule := [((("Monday") : String), ⟨540, 600⟩)] } ⟨540, 600⟩
    (by decide) (by decide) (by decide)

/-- C6: when no enrolled course of the student has an active window at the
timestamp, `mark_attendance` returns the no-active-course result and leaves the
attendance store unchanged. -/
theorem mark_attendance_no_active_course (store : Store) (student_id : String)
    (ts : DateTime) (h : find_current_course store student_id ts = none) :
    mark_attendance store student_id ts = (.noActiveCourse, store) :=
  mark_attendance_of_none store student_id ts h

/-- Witness for C6 on a Tuesday timestamp, when the Monday-only course does not
resolve. -/
theorem mark_attendance_no_active_course_witness :
    find_current_course mondayStore ("S1") ⟨1, 33000⟩ = none ∧
    mark_attendance mondayStore ("S1") ⟨1, 33000⟩ = (.noActiveCourse, mondayStore) :=
  ⟨by decide, mark_attendance_no_active_course mondayStore ("S1") ⟨1, 33000⟩ (by decide)⟩

/-- C10: for a student_id absent from the persistent store, course resolution
returns none rather than failing, and marking attendance is the no-active-course
no-op that writes nothing. -/
theorem find_current_course_unknown_student (store : Store) (student_id : String)
    (ts : DateTime) (h : ∀ st ∈ store.students, st.student_id ≠ student_id) :
    find_current_course store student_id ts = none ∧
    mark_attendance store student_id ts = (.noActiveCourse, store) := by
  have hf : store.students.filter (fun s => s.student_id == student_id) = [] := by
    rw [List.filter_eq_nil_iff]
    intro a ha
    simpa using h a ha
  have hnone : find_current_course store student_id ts = none := by
    unfold find_current_course
    rw [hf]
  exact ⟨hnone, mark_attendance_of_none store student_id ts hnone⟩

/-- Witness for C10: student S2 is not in the store. -/
theorem find_current_course_unknown_student_witness :
    find_current_course mondayStore ("S2") ⟨0, 33000⟩ = none ∧
    mark_attendance mondayStore ("S2") ⟨0, 33000⟩ = (.noActiveCourse, mondayStore) :=
  find_current_course_unknown_student mondayStore ("S2") ⟨0, 33000⟩ (by decide)

/-- C1: from a store with no record for (student, course, day), marking twice on
the same calendar day with the same resolved course yields the marked branch
then the already-marked branch, and exactly one present record for that
(student_id, course_id, date) exists afterwards. -/
theorem mark_attendance_idempotent_same_day
    (store : Store) (student_id : String) (t1 t2 : DateTime) (c : String)
    (hday : t1.day = t2.day)
    (h1 : find_current_course store student_id t1 = some c)
    (h2 : find_current_course store student_id t2 = some c)
    (hc : c ≠ (""))
    (hclean : ∀ r ∈ store.attendance,
      ¬(r.student_id = student_id ∧ r.course_id = c ∧ r.date = t1.day)) :
    (mark_attendance store student_id t1).1 = .marked ∧
    (mark_attendance (mark_attendance store student_id t1).2 student_id t2).1 =
      .alreadyMarked ∧
    ((mark_attendance (mark_attendance store student_id t1).2 student_id t2).2.attendance.filter
      (fun r => r.student_id == student_id && r.course_id == c &&
                r.date == t1.day && r.status == ("present"))).length = 1 := by
  have hany : (store.attendance.any (fun r =>
      (r.student_id == student_id) && (r.course_id == c && r.date == t1.day))) = false := by
    rw [List.any_eq_false]
    intro r hr
    have hcl := hclean r hr
    simp only [Bool.and_eq_true, beq_iff_eq]
    tauto
  have e1 : mark_attendance store student_id t1 =
      (.marked, { store with attendance := store.attendance ++
        [{ course_id := c, student_id := student_id, date := t1.day,
           timestamp := t1, status := ("present") }] }) := by
    rw [mark_attendance_of_some store student_id t1 c h1 hc, hany]
    simp
  have hfind2 : find_current_course
      { store with attendance := store.attendance ++
        [{ course_id := c, student_id := student_id, date := t1.day,
           timestamp := t1, status := ("present") }] } student_id t2 = some c := by
    rw [find_current_course_attendance_irrel]
    exact h2
  have hany2 : (({ store with attendance := store.attendance ++
      [{ course_id := c, student_id := student_id, date := t1.day,
         timestamp := t1, status := ("present") }] } : Store).attendance.any (fun r =>
      (r.student_id == student_id) && (r.course_id == c && r.date == t2.day))) = true := by
    rw [List.any_eq_true]
    refine ⟨{ course_id := c, student_id := student_id, date := t1.day,
              timestamp := t1, status := ("present") }, ?_, ?_⟩
    · exact List.mem_append_right _ (List.mem_singleton.mpr rfl)
    · simp [hday]
  have e2 : mark_attendance
      { store with attendance := store.attendance ++
        [{ course_id := c, student_id := student_id, date := t1.day,
           timestamp := t1, status := ("present") }] } student_id t2 =
      (.alreadyMarked, { store with attendance := store.attendance ++
        [{ course_id := c, student_id := student_id, date := t1.day,
           timestamp := t1, status := ("present") }] }) := by
    rw [mark_attendance_of_some _ student_id t2 c hfind2 hc, hany2]
    simp
  have key : mark_attendance (mark_attendance store student_id t1).2 student_id t2 =
      (.alreadyMarked, { store with attendance := store.attendance ++
        [{ course_id := c, student_id := student_id, date := t1.day,
           timestamp := t1, status := ("present") }] }) := by
    rw [e1]
    exact e2
  refine ⟨by rw [e1], by rw [key], ?_⟩
  rw [key]
  show (((store.attendance ++
      [{ course_id := c, student_id := student_id, date := t1.day,
         timestamp := t1, status := ("present") }]) : List AttendanceRecord).filter
      (fun r => r.student_id == student_id && r.course_id == c &&
                r.date == t1.day && r.status == ("present"))).length = 1
  rw [List.filter_append]
  have hnil : store.attendance.filter
      (fun r => r.student_id == student_id && r.course_id == c &&
                r.date == t1.day && r.status == ("present")) = [] := by
    rw [List.filter_eq_nil_iff]
    intro r hr
    have hcl := hclean r hr
    simp only [Bool.and_eq_true, beq_iff_eq]
    tauto
  rw [hnil]
  simp

/-- Witness for C1: two in-window Monday timestamps (09:00:00 and 10:15:00)
for student S1 and course CSE001 on an empty attendance store. -/
theorem mark_attendance_idempotent_same_day_witness :
    (mark_attendance mondayStore ("S1") ⟨0, 32400⟩).1 = .marked ∧
    (mark_attendance (mark_attendance mondayStore ("S1") ⟨0, 32400⟩).2 ("S1") ⟨0, 36900⟩).1 =
      .alreadyMarked ∧
    ((mark_attendance (mark_attendance mondayStore ("S1") ⟨0, 32400⟩).2 ("S1")
        ⟨0, 36900⟩).2.attendance.filter
      (fun r => r.student_id == ("S1") && r.course_id == ("CSE001") &&
                r.date == 0 && r.status == ("present"))).length = 1 :=
  mark_attendance_idempotent_same_day mondayStore ("S1") ⟨0, 32400⟩ ⟨0, 36900⟩ ("CSE001")
    rfl (by decide) (by decide) (by decide) (by decide)

/-- C5 counterexample: with an existing record for (S1, CSE001, day 0) whose
status is absent (no present record exists), marking at an in-window timestamp
still takes the already-marked branch: the duplicate check never reads status. -/
theorem mark_attendance_status_blind :
    (mark_attendance absentRecordStore ("S1") ⟨0, 33000⟩).1 = .alreadyMarked ∧
    ∀ r ∈ absentRecordStore.attendance, r.status ≠ ("present") := by decide

/-- C5 amended: with an active resolved course, `mark_attendance` returns the
already-marked branch exactly when some existing record of the student matches
the resolved course_id and the timestamp's calendar date, regardless of the
record's status. -/
theorem mark_attendance_duplicate_iff (store : Store) (student_id : String)
    (ts : DateTime) (c : String)
    (h : find_current_course store student_id ts = some c) (hc : c ≠ ("")) :
    (mark_attendance store student_id ts).1 = .alreadyMarked ↔
      ∃ r ∈ store.attendance,
        r.student_id = student_id ∧ r.course_id = c ∧ r.date = ts.day := by
  rw [mark_attendance_of_some store student_id ts c h hc]
  by_cases hb : (store.attendance.any (fun r =>
      (r.student_id == student_id) && (r.course_id == c && r.date == ts.day))) = true
  · rw [if_pos hb]
    simp only [true_iff]
    obtain ⟨r, hr, hp⟩ := List.any_eq_true.mp hb
    exact ⟨r, hr, by simpa [Bool.and_eq_true, beq_iff_eq] using hp⟩
  · rw [if_neg hb]
    simp only [reduceCtorEq, false_iff]
    rintro ⟨r, hr, hs, hcid, hd⟩
    exact hb (List.any_eq_true.mpr ⟨r, hr, by simp [hs, hcid, hd]⟩)

/-- Witness for the amended C5 at the store holding one present record for
(S1, CSE001, day 0) and an in-window Monday timestamp. -/
theorem mark_attendance_duplicate_iff_witness :
    (mark_attendance presentRecordStore ("S1") ⟨0, 33000⟩).1 = .alreadyMarked ↔
      ∃ r ∈ presentRecordStore.attendance,
        r.student_id = ("S1") ∧ r.course_id = ("CSE001") ∧ r.date = 0 :=
  mark_attendance_duplicate_iff presentRecordStore ("S1") ⟨0, 33000⟩ ("CSE001")
    (by decide) (by decide)

/-- C4 counterexample: an already-marked run and a no-active-course run return
the same value to the caller (both False), so the two no-ops cannot be told
apart from the result value. -/
theorem mark_return_value_indistinguishable :
    (mark_attendance presentRecordStore ("S1") ⟨0, 33000⟩).1 = .alreadyMarked ∧
    (mark_attendance mondayStore ("S1") ⟨1, 33000⟩).1 = .noActiveCourse ∧
    markReturn (mark_attendance presentRecordStore ("S1") ⟨0, 33000⟩).1 =
      markReturn (mark_attendance mondayStore ("S1") ⟨1, 33000⟩).1 := by decide

/-- C4 amended: `mark_attendance` returns a boolean to its caller, True exactly
on the marked branch and False on both no-op branches, which are therefore not
distinguishable from the return value; neither no-op raises. -/
theorem mark_return_value_boolean (store : Store) (student_id : String)
    (ts : DateTime) :
    (markReturn (mark_attendance store student_id ts).1 = true ↔
      (mark_attendance store student_id ts).1 = .marked) ∧
    markReturn .alreadyMarked = markReturn .noActiveCourse := by
  refine ⟨?_, rfl⟩
  cases h : (mark_attendance store student_id ts).1 <;> simp [markReturn]

/-- If a boolean-valued map is false everywhere on a list, the mapped list does
not contain true. -/
theorem mapContains_false {α : Type} (p : α → Bool) :
    ∀ l : List α, (∀ e ∈ l, p e = false) → ((l.map p).contains true) = false := by
  intro l
  induction l with
  | nil => intro _; rfl
  | cons e es ih =>
    intro h
    have h0 := h e (List.mem_cons_self e es)
    simp only [List.map_cons, List.contains_cons, h0]
    simpa using ih (fun x hx => h x (List.mem_cons_of_mem e hx))

/-- When the head of the gallery is within tolerance, recognition returns the
first name. -/
theorem recognizeName_cons_true {α : Type} (dist : α → α → ℚ) (e : α) (es : List α)
    (names : List String) (q : α) (h : decide (dist e q < 1 / 2) = true) :
    recognizeName dist (e :: es) names q = names.getD 0 ("Unknown") := by
  unfold recognizeName compare_faces
  simp only [List.map_cons]
  rw [h]
  rfl

/-- When the head of the gallery is out of tolerance, recognition shifts by one
position. -/
theorem recognizeName_cons_false {α : Type} (dist : α → α → ℚ) (e : α) (es : List α)
    (names : List String) (q : α) (h : decide (dist e q < 1 / 2) = false) :
    recognizeName dist (e :: es) names q =
      (if (compare_faces dist es q (1 / 2)).contains true then
        names.getD (firstTrueIdx (compare_faces dist es q (1 / 2)) + 1) ("Unknown")
      else ("Unknown")) := by
  unfold recognizeName compare_faces
  simp only [List.map_cons]
  rw [h]
  rfl

/-- Skipping an out-of-tolerance gallery head drops the head name as well. -/
theorem recognizeName_cons_shift {α : Type} (dist : α → α → ℚ) (e : α) (es : List α)
    (n : String) (ns : List String) (q : α) (h : decide (dist e q < 1 / 2) = false) :
    recognizeName dist (e :: es) (n :: ns) q = recognizeName dist es ns q := by
  rw [recognizeName_cons_false dist e es (n :: ns) q h]
  unfold recognizeName
  by_cases hb : (compare_faces dist es q (1 / 2)).contains true = true
  · simp [hb]
  · simp [hb]

/-- Recognition returns the name at the first gallery index within tolerance. -/
theorem recognizeName_first {α : Type} (dist : α → α → ℚ) :
    ∀ (encs : List α) (names : List String) (q : α) (i : Nat) (hi : i < encs.length),
      dist (encs.get ⟨i, hi⟩) q < 1 / 2 →
      (∀ k (hk : k < encs.length), k < i → ¬ dist (encs.get ⟨k, hk⟩) q < 1 / 2) →
      recognizeName dist encs names q = names.getD i ("Unknown") := by
  intro encs
  induction encs with
  | nil => intro names q i hi; exact absurd hi (by simp)
  | cons e es ih =>
    intro names q i hi hd hfirst
    cases i with
    | zero =>
      exact recognizeName_cons_true dist e es names q (by simpa using hd)
    | succ j =>
      have hd0 : decide (dist e q < 1 / 2) = false := by
        simpa using hfirst 0 (by simp) (Nat.succ_pos j)
      have hj : j < es.length := by simpa using hi
      have hdj : dist (es.get ⟨j, hj⟩) q < 1 / 2 := by simpa using hd
      have hfirstj : ∀ k (hk : k < es.length), k < j → ¬ dist (es.get ⟨k, hk⟩) q < 1 / 2 := by
        intro k hk hkj
        have := hfirst (k + 1) (by simpa using Nat.succ_lt_succ hk) (Nat.succ_lt_succ hkj)
        simpa using this
      cases names with
      | nil =>
        rw [recognizeName_cons_false dist e es [] q hd0]
        simp
      | cons n ns =>
        rw [recognizeName_cons_shift dist e es n ns q hd0, List.getD_cons_succ]
        exact ih ns q j hj hdj hfirstj

/-- When every gallery distance is out of tolerance, recognition returns the
unknown label. -/
theorem recognizeName_eq_unknown {α : Type} (dist : α → α → ℚ) :
    ∀ (encs : List α) (names : List String) (q : α),
      (∀ e ∈ encs, ¬ dist e q < 1 / 2) →
      recognizeName dist encs names q = ("Unknown") := by
  intro encs
  induction encs with
  | nil => intro names q _; rfl
  | cons e es ih =>
    intro names q h
    have hd0 : decide (dist e q < 1 / 2) = false := by
      simpa using h e (List.mem_cons_self e es)
    rw [recognizeName_cons_false dist e es names q hd0]
    have hcf : (compare_faces dist es q (1 / 2)).contains true = false := by
      unfold compare_faces
      exact mapContains_false _ es
        (fun x hx => by simpa using h x (List.mem_cons_of_mem e hx))
    rw [hcf]
    simp

/-- C3 counterexample: the gallery holds label A at distance 2/5 and label B at
distance 3/10 from the query; the closest Identity is B, within tolerance, yet
recognition returns A — the first Identity under the threshold wins, not the
nearest. -/
theorem recognizeName_not_nearest :
    recognizeName (fun e _ : ℚ => e) [2 / 5, 3 / 10] [("A"), ("B")] 0 = ("A") ∧
    (3 : ℚ) / 10 < 2 / 5 ∧ (3 : ℚ) / 10 < 1 / 2 ∧ ("A") ≠ ("B") := by
  refine ⟨?_, by norm_num, by norm_num, by decide⟩
  norm_num [recognizeName, compare_faces, firstTrueIdx, List.contains]

/-- C3 amended: recognition returns the unknown label whenever every gallery
distance is at least the 0.5 tolerance (in particular when the closest distance
is); when some Identity lies strictly within tolerance it returns the label of
the first such Identity in load order, which is the closest one's label whenever
only one Identity lies within tolerance. -/
theorem recognizeName_threshold (α : Type) (dist : α → α → ℚ) (encs : List α)
    (names : List String) (q : α) (hlen : names.length = encs.length) :
    ((∀ e ∈ encs, ¬ dist e q < 1 / 2) → recognizeName dist encs names q = ("Unknown")) ∧
    (∀ i (hi : i < encs.length), dist (encs.get ⟨i, hi⟩) q < 1 / 2 →
      (∀ k (hk : k < encs.length), k < i → ¬ dist (encs.get ⟨k, hk⟩) q < 1 / 2) →
      recognizeName dist encs names q = names.getD i ("Unknown")) :=
  ⟨recognizeName_eq_unknown dist encs names q,
   fun i hi hd hf => recognizeName_first dist encs names q i hi hd hf⟩

/-- Witness for the amended C3: a single-Identity gallery at distance 3/10 is
matched (3/10 is below the 0.5 tolerance), and the same gallery at distance 3/5
is not. -/
theorem recognizeName_threshold_witness :
    recognizeName (fun e _ : ℚ => e) [3 / 10] [("B")] 0 = ("B") ∧
    recognizeName (fun e _ : ℚ => e) [3 / 5] [("B")] 0 = ("Unknown") := by
  constructor
  · exact (recognizeName_threshold ℚ (fun e _ : ℚ => e) [3 / 10] [("B")] 0 rfl).2
      0 (by norm_num) (by norm_num) (fun k hk hk0 => absurd hk0 (Nat.not_lt_zero k))
  · exact (recognizeName_threshold ℚ (fun e _ : ℚ => e) [3 / 5] [("B")] 0 rfl).1
      (by intro e he; rw [List.mem_singleton] at he; rw [he]; norm_num)

/-- C7: when at least two gallery Identities lie within tolerance, recognition
returns the label at the first in-tolerance index in load order — independently
of which of the two is nearer. -/
theorem recognizeName_first_match_wins (α : Type) (dist : α → α → ℚ)
    (encs : List α) (names : List String) (q : α)
    (hlen : names.length = encs.length) (i j : Nat)
    (hi : i < encs.length) (hj : j < encs.length) (hij : i < j)
    (hdi : dist (encs.get ⟨i, hi⟩) q < 1 / 2)
    (hdj : dist (encs.get ⟨j, hj⟩) q < 1 / 2)
    (hfirst : ∀ k (hk : k < encs.length), k < i → ¬ dist (encs.get ⟨k, hk⟩) q < 1 / 2) :
    recognizeName dist encs names q = names.getD i ("Unknown") :=
  recognizeName_first dist encs names q i hi hdi hfirst

/-- Witness for C7: labels A (distance 2/5) and B (distance 3/10) are both
within tolerance; the first in load order, A, wins even though B is nearer. -/
theorem recognizeName_first_match_wins_witness :
    recognizeName (fun e _ : ℚ => e) [2 / 5, 3 / 10] [("A"), ("B")] 0 =
      [("A"), ("B")].getD 0 ("Unknown") :=
  recognizeName_first_match_wins ℚ (fun e _ : ℚ => e) [2 / 5, 3 / 10]
    [("A"), ("B")] 0 rfl 0 1 (by norm_num) (by norm_num) Nat.zero_lt_one
    (by norm_num) (by norm_num) (fun k hk hk0 => absurd hk0 (Nat.not_lt_zero k))

/-- C8: gallery loading is unaffected by ill-formed images — the load of any
file list equals the load of its well-formed sublist (so a per-item failure
never aborts the rest), and every well-formed image contributes exactly one
Identity (the name list has one entry per well-formed image). -/
theorem load_known_faces_skips_failures (α : Type) (files : List (ImageFile α)) :
    load_known_faces files = load_known_faces (files.filter isWellFormedImage) ∧
    (load_known_faces files).2.length = (files.filter isWellFormedImage).length := by
  induction files with
  | nil => exact ⟨rfl, rfl⟩
  | cons f rest ih =>
    rw [List.filter_cons]
    by_cases hw : isWellFormedImage f = true
    · rw [if_pos hw]
      have hext : hasImageExt f.filename = true := by
        unfold isWellFormedImage at hw
        rw [Bool.and_eq_true] at hw
        exact hw.1
      obtain ⟨e, l, hdec⟩ : ∃ e l, f.decoded = some (e :: l) := by
        unfold isWellFormedImage at hw
        rw [Bool.and_eq_true] at hw
        rcases hdecd : f.decoded with _ | (_ | ⟨x, xs⟩)
        · rw [hdecd] at hw
          simp at hw
        · rw [hdecd] at hw
          simp at hw
        · exact ⟨x, xs, rfl⟩
      constructor
      · simp only [load_known_faces, hext, hdec, if_true, ih.1]
      · simp [load_known_faces, hext, hdec, ih.2]
    · rw [if_neg hw]
      have hskip : load_known_faces (f :: rest) = load_known_faces rest := by
        unfold isWellFormedImage at hw
        by_cases hext : hasImageExt f.filename = true
        · rcases hdecd : f.decoded with _ | (_ | ⟨x, xs⟩)
          · simp [load_known_faces, hext, hdecd]
          · simp [load_known_faces, hext, hdecd]
          · rw [hdecd] at hw
            simp [hext] at hw
        · simp [load_known_faces, hext]
      rw [hskip]
      exact ih

/-- When `mark_attendance` takes the marked branch, the new store is the old one
with exactly one appended present record for the student and resolved course. -/
theorem mark_attendance_marked_append (store : Store) (student_id : String)
    (ts : DateTime) (h : (mark_attendance store student_id ts).1 = .marked) :
    ∃ c, (mark_attendance store student_id ts).2 =
      { store with attendance := store.attendance ++
        [{ course_id := c, student_id := student_id, date := ts.day,
           timestamp := ts, status := ("present") }] } := by
  rcases hf : find_current_course store student_id ts with _ | c
  · rw [mark_attendance_of_none store student_id ts hf] at h
    simp at h
  · by_cases hc : c = ("")
    · subst hc
      unfold mark_attendance at h
      simp only [hf] at h
      simp at h
    · rw [mark_attendance_of_some store student_id ts c hf hc] at h ⊢
      by_cases hb : (store.attendance.any (fun r =>
          (r.student_id == student_id) && (r.course_id == c && r.date == ts.day))) = true
      · rw [if_pos hb] at h
        simp at h
      · rw [if_neg hb]
        exact ⟨c, rfl⟩

/-- C9: the per-face pipeline step requests the actuator exactly when
`mark_attendance` took the marked branch; the resulting store never depends on
the actuator connection or its outcome, and on the marked branch the appended
present record stays in place whatever the actuator does. -/
theorem processMatchedFace_actuator_frame (conn : Option SerialConn)
    (store : Store) (student_id : String) (ts : DateTime) :
    (∀ other : Option SerialConn,
      (processMatchedFace other store student_id ts).1 =
        (mark_attendance store student_id ts).2) ∧
    ((processMatchedFace conn store student_id ts).2.1 = true ↔
      (mark_attendance store student_id ts).1 = .marked) ∧
    ((mark_attendance store student_id ts).1 = .marked →
      ∃ rec, rec.status = ("present") ∧ rec.student_id = student_id ∧
        (processMatchedFace conn store student_id ts).1.attendance =
          store.attendance ++ [rec]) := by
  refine ⟨?_, ?_, ?_⟩
  · intro other
    unfold processMatchedFace
    by_cases hm : markReturn (mark_attendance store student_id ts).1 = true
    · rw [if_pos hm]
    · rw [if_neg hm]
  · unfold processMatchedFace
    cases h : (mark_attendance store student_id ts).1 <;> simp [markReturn, h]
  · intro h
    obtain ⟨c, hc⟩ := mark_attendance_marked_append store student_id ts h
    refine ⟨{ course_id := c, student_id := student_id, date := ts.day,
              timestamp := ts, status := ("present") }, rfl, rfl, ?_⟩
    have hstore : (processMatchedFace conn store student_id ts).1 =
        (mark_attendance store student_id ts).2 := by
      unfold processMatchedFace
      by_cases hm : markReturn (mark_attendance store student_id ts).1 = true
      · rw [if_pos hm]
      · rw [if_neg hm]
    rw [hstore, hc]

/-- Witness for C9: a marked run with a failing serial write (port open, write
raises) still leaves the appended present record in the store. -/
theorem processMatchedFace_actuator_frame_witness :
    trigger_led_blink (some ⟨true, true⟩) = false ∧
    ∃ rec, rec.status = ("present") ∧ rec.student_id = ("S1") ∧
      (processMatchedFace (some ⟨true, true⟩) mondayStore ("S1") ⟨0, 33000⟩).1.attendance =
        mondayStore.attendance ++ [rec] :=
  ⟨rfl, (processMatchedFace_actuator_frame (some ⟨true, true⟩) mondayStore ("S1")
    ⟨0, 33000⟩).2.2 (by decide)⟩
